import Mathlib

/-!
Verification of the Tuya serial bridge/controller (sniffer.cpp, appSpecific.cpp).

This file gives a shallow embedding of the program's core:
  * the per-port byte reassembler `processTuyaByte` and the message
    formatter/processor `formatTuya` (sniffer.cpp),
  * the outbound frame encoder `processTuyaMsg` (sniffer.cpp),
  * the datapoint dispatcher `processDP` / `processMCUcmd`, the hysteresis
    controller `controlHeating`, the UI update encoder `updateAppStatus` and
    the schedule driver `checkSchedule` (appSpecific.cpp),
and proves the specification's claims about them.

Modelling conventions:
  * machine bytes are `Nat` kept below 256 by explicit `% 256` at each point
    where C narrows to `uint8_t`;
  * C `int32_t` / `int16_t` wrap-around is modelled by `toInt32` / `toInt16`;
  * C `float`/`double` arithmetic on temperatures is modelled exactly over `ℚ`
    (all values involved are small decimal fractions); C casts from float to a
    signed integer truncate toward zero, modelled by `ratTrunc`;
  * byte buffers are total functions `Nat → Nat` (static C arrays are
    zero-initialised, so the initial buffer is the constant 0 function); this
    keeps the stale contents that remain in a buffer after a message, exactly
    as in the C code;
  * the console-command strings exchanged between `updateAppStatus` and
    `processTuyaMsg` are space-separated decimal numbers read back by
    `getNumber` (strtol); the model passes the list of parsed numbers
    (`List Int`) directly, which is what the string round-trip yields.
-/

set_option maxRecDepth 100000

/-! ### Generic helpers -/

/-- Pointwise update of a byte buffer (a C array write `f[i] = v`). -/
def fupd (f : Nat → Nat) (i v : Nat) : Nat → Nat :=
  fun j => if j = i then v else f j

/-- Two's-complement reading of a value as a signed 32-bit integer
(C `int32_t` wrap-around). -/
def toInt32 (n : Int) : Int :=
  (n + 2 ^ 31).emod (2 ^ 32) - 2 ^ 31

/-- Two's-complement reading of a value as a signed 16-bit integer
(C `int16_t` wrap-around). -/
def toInt16 (n : Int) : Int :=
  (n + 2 ^ 15).emod (2 ^ 16) - 2 ^ 15

/-- C cast of a float to a signed integer: truncation toward zero. -/
def ratTrunc (q : ℚ) : Int :=
  q.num.tdiv q.den

/-- Consume leading decimal digits, accumulating their value
(the digit loop inside `strtol` / `atoi` / `sscanf %hhu`). -/
def digitsAcc : List Char → Nat → Nat × List Char
  | [], acc => (acc, [])
  | c :: cs, acc =>
    if c.isDigit then digitsAcc cs (acc * 10 + (c.toNat - 48)) else (acc, c :: cs)

/-- Skip leading blanks, as `strtol`-family functions do. -/
def skipBlanks : List Char → List Char
  | [] => []
  | c :: cs => if c = ' ' ∨ c = '\t' then skipBlanks cs else c :: cs

/-- C `atoi` on a character list: optional sign, then digits (0 if none). -/
def atoiL (s : List Char) : Int :=
  match skipBlanks s with
  | '-' :: t => -(((digitsAcc t 0).1 : Int))
  | '+' :: t => ((digitsAcc t 0).1 : Int)
  | t => ((digitsAcc t 0).1 : Int)

/-- C `atoi`. -/
def atoi (s : String) : Int := atoiL s.toList

/-- Consume leading digits returning their value and their count
(for the fraction part of `atof`). -/
def digitsCnt : List Char → Nat → Nat → Nat × Nat × List Char
  | [], acc, k => (acc, k, [])
  | c :: cs, acc, k =>
    if c.isDigit then digitsCnt cs (acc * 10 + (c.toNat - 48)) (k + 1)
    else (acc, k, c :: cs)

/-- Unsigned part of `atof`: integer digits, optional point, fraction digits. -/
def atofUnsigned (s : List Char) : ℚ :=
  let (ip, r) := digitsAcc s 0
  match r with
  | '.' :: t =>
    let (fp, k, _) := digitsCnt t 0 0
    (ip : ℚ) + (fp : ℚ) / ((10 : ℚ) ^ k)
  | _ => (ip : ℚ)

/-- C `atof` on a character list (exact over `ℚ`). -/
def atofL (s : List Char) : ℚ :=
  match skipBlanks s with
  | '-' :: t => -(atofUnsigned t)
  | '+' :: t => atofUnsigned t
  | t => atofUnsigned t

/-- C `atof`. -/
def atof (s : String) : ℚ := atofL s.toList

/-- Check whether a character list starts with a pattern. -/
def startsWithL : List Char → List Char → Bool
  | _, [] => true
  | [], _ :: _ => false
  | a :: as, b :: bs => a = b && startsWithL as bs

/-- Substring search over character lists (C `strstr` returning non-NULL). -/
def hasSub : List Char → List Char → Bool
  | [], pat => startsWithL [] pat
  | c :: cs, pat => startsWithL (c :: cs) pat || hasSub cs pat

/-- C `strstr(s, pat) != NULL`. -/
def containsStr (s pat : String) : Bool := hasSub s.toList pat.toList

/-! ### sniffer.cpp: inbound reassembly (`processTuyaByte`) -/

/-- Modelled from the spec: `BUFF_LEN` is defined in `appGlobals.h`, which is
not part of the two sources; the spec calls `BUFF_LEN - 10` the buffer limit at
which a message is force-delivered.  The concrete value only parameterises that
limit. -/
def BUFF_LEN : Nat := 1024

/-- Modelled from the spec: the configuration option `USE_SNIFFER` selects pure
forward mode with no datapoint processing.  The claims concern bridge mode, so
the flag is false. -/
def USE_SNIFFER : Bool := false

/-- Modelled from the spec: `configLoaded` is a framework global (not in the two
sources) that is true once the configuration is loaded at startup; every claim
concerns the running phase. -/
def configLoaded : Bool := true

/-- Per-port reassembly state of `processTuyaByte`: the statics `tuyaIdx`,
`haveHdr`, `msgLen` and the persistent buffer `tuyaData` (one instance per
port; the claims always concern a single port). -/
structure PortState where
  idx : Nat
  haveHdr : Bool
  msgLen : Nat
  buf : Nat → Nat

/-- Initial port state: statics start at 0 / false / `BUFF_LEN - 10`, and the
static C buffer is zero-initialised. -/
def initPort : PortState :=
  { idx := 0, haveHdr := false, msgLen := BUFF_LEN - 10, buf := fun _ => 0 }

/-- Line 143 of sniffer.cpp: store the byte and advance the index
(`tuyaData[uartNum][tuyaIdx[uartNum]++] = tuyaByte`). -/
def ptbWrite (s : PortState) (b : Nat) : PortState :=
  { s with buf := fupd s.buf s.idx (b % 256), idx := s.idx + 1 }

/-- Lines 144-154 of sniffer.cpp: when no header has been seen and the last two
buffered bytes are 0x55 0xAA (= 21930), move the header to the start of the
buffer (memmove of 2 bytes) and restart at offset 2. -/
def ptbHeader (s : PortState) : PortState :=
  if 1 < s.idx ∧ s.haveHdr = false then
    if s.buf (s.idx - 2) * 256 + s.buf (s.idx - 1) = 21930 then
      { s with
        buf := fupd (fupd s.buf 0 (s.buf (s.idx - 2))) 1 (s.buf (s.idx - 1)),
        idx := 2, haveHdr := true }
    else s
  else s

/-- Lines 156-157 of sniffer.cpp: at six buffered bytes with the header seen,
read the big-endian length field from positions 4 and 5. -/
def ptbMsgLen (s : PortState) : PortState :=
  if s.idx = 6 ∧ s.haveHdr = true then
    { s with msgLen := s.buf 4 * 256 + s.buf 5 }
  else s

/-- One step of `processTuyaByte` (sniffer.cpp lines 136-167).  When the buffer
holds `msgLen + 7` bytes (or the buffer limit), the buffer and its length are
delivered (to `formatTuya`) and the statics are reset. -/
def processTuyaByte (s : PortState) (b : Nat) :
    PortState × Option ((Nat → Nat) × Nat) :=
  let s1 := ptbMsgLen (ptbHeader (ptbWrite s b))
  if s1.idx = min (s1.msgLen + 7) (BUFF_LEN - 10) then
    ({ idx := 0, haveHdr := false, msgLen := BUFF_LEN - 10, buf := s1.buf },
      some (s1.buf, s1.idx))
  else (s1, none)

/-- Feed a byte stream to the reassembler, collecting every delivered frame as
its list of bytes (buffer positions `0 .. len - 1`). -/
def runFrames (s : PortState) : List Nat → PortState × List (List Nat)
  | [] => (s, [])
  | b :: bs =>
    match processTuyaByte s b with
    | (s', some fn) =>
      ((runFrames s' bs).1, (List.range fn.2).map fn.1 :: (runFrames s' bs).2)
    | (s', none) => runFrames s' bs

/-! ### sniffer.cpp: message processing (`formatTuya`) -/

/-- The process-wide struct `mcuTuya` carrying the most recently decoded
message between the codec and the dispatcher (`tuyaStruct` in appGlobals.h,
whose fields are exactly the ones sniffer.cpp writes): command number,
datapoint id, decoded 32-bit integer value, and the raw data byte array. -/
structure Tuya where
  tuyaCmd : Nat
  tuyaDP : Nat
  tuyaInt : Int
  tuyaData : Nat → Nat

/-- The zero-initialised global `mcuTuya`. -/
def initTuya : Tuya :=
  { tuyaCmd := 0, tuyaDP := 0, tuyaInt := 0, tuyaData := fun _ => 0 }

/-- Copy loop `for (y = base; y < len - 1; y++) mcuTuya.tuyaData[y - base] =
tuyaData[y]` used by the raw / string / no-datapoint branches of
`formatTuya`. -/
def copyRange (buf td : Nat → Nat) (base cnt : Nat) : Nat → Nat :=
  (List.range cnt).foldl (fun acc k => fupd acc k (buf (base + k))) td

/-- One iteration `i` of the `formatTuya` loop (sniffer.cpp lines 65-132),
restricted to its processing effect on `mcuTuya` (the `formatted` string is
display only).  The Bool component is the loop-local `DP` flag. -/
def formatStep (buf : Nat → Nat) (len : Nat) (isP : Bool)
    (acc : Tuya × Bool) (i : Nat) : Tuya × Bool :=
  let m := acc.1
  let DP := acc.2
  if i = 3 then
    -- command number; commands 6 and 7 carry datapoints; when processing,
    -- record the command and the datapoint id (read from position 6, which may
    -- lie beyond the received bytes)
    (if isP then { m with tuyaCmd := buf 3, tuyaDP := buf 6 } else m,
      buf 3 = 6 ∨ buf 3 = 7)
  else if DP then
    if i = 10 ∧ 10 + 1 < len then
      (if isP then
        -- data content, format depends on data type at position 7
        if buf 7 = 0 ∨ buf 7 = 5 then
          { m with tuyaData := copyRange buf m.tuyaData 10 (len - 1 - 10) }
        else if buf 7 = 1 then
          { m with tuyaData := fupd m.tuyaData 0 (buf 10) }
        else if buf 7 = 2 then
          { m with tuyaInt :=
            toInt32 (buf 10 * 16777216 + buf 11 * 65536 + buf 12 * 256 + buf 13) }
        else if buf 7 = 3 then
          { m with tuyaData := copyRange buf m.tuyaData 10 (len - 1 - 10) }
        else if buf 7 = 4 then
          { m with tuyaData := fupd m.tuyaData 0 (buf 10) }
        else m
      else m, DP)
    else (m, DP)
  else
    -- commands without datapoints: data copied from position 6 when available
    if i = 6 ∧ 6 + 1 < len then
      (if isP then { m with tuyaData := copyRange buf m.tuyaData 6 (len - 1 - 6) }
       else m, DP)
    else (m, DP)

/-- `formatTuya` (sniffer.cpp lines 57-134): processing effect on the global
`mcuTuya` of formatting a delivered buffer of `len` bytes.  In sniffer mode no
processing happens. -/
def formatTuya (buf : Nat → Nat) (len : Nat) (isProcessed : Bool) (m : Tuya) :
    Tuya :=
  let isP := if USE_SNIFFER then false else isProcessed
  ((List.range len).foldl (formatStep buf len isP) (m, false)).1

/-! ### sniffer.cpp: outbound encoder (`processTuyaMsg`) -/

/-- A console command for `processTuyaMsg`: the destination character and the
successive numbers `getNumber` (strtol) parses from the rest of the string. -/
def LONG_MIN : Int := -(2 ^ 31)

/-- One `getNumber` call: the next parsed number, or `LONG_MIN` when the input
is exhausted. -/
def nextNum : List Int → Int × List Int
  | [] => (LONG_MIN, [])
  | n :: t => (n, t)

/-- The data-section loop of `processTuyaMsg` (lines 296-299): append each
remaining number as a byte at `tuyaCmd[++idx]`. -/
def dataLoop (nums : List Int) (buf : Nat → Nat) (idx : Nat) :
    (Nat → Nat) × Nat :=
  nums.foldl (fun acc n => (fupd acc.1 (acc.2 + 1) ((n.emod 256).toNat), acc.2 + 1))
    (buf, idx)

/-- Append the checksum byte `tuyaCmd[++idx]` (sniffer.cpp lines 312-313): the
`uint8_t` accumulation of all preceding bytes, i.e. their sum modulo 256. -/
def withChecksum (body : List Nat) : List Nat := body ++ [body.sum % 256]

/-- Core of `processTuyaMsg` (sniffer.cpp lines 267-319) for a resolved uart
number: build the Tuya command buffer from the parsed numbers and return the
byte sequence written to the uart.  Uninitialised C buffer cells are modelled
as 0; every emitted position is written on all paths. -/
def processTuyaMsgCore (uartNum : Nat) (nums : List Int) : List Nat :=
  let p1 := nextNum nums
  let cmd3 := (p1.1.emod 256).toNat
  let isDP := cmd3 = 6 ∨ cmd3 = 7
  let b1 := fupd (fun _ => 0) 3 cmd3
  -- datapoint id, data type, and for type 2 the big-endian 4-byte integer
  let stA :=
    if isDP then
      let p2 := nextNum p1.2
      let p3 := nextNum p2.2
      let ty := (p3.1.emod 256).toNat
      let b2 := fupd (fupd b1 6 ((p2.1.emod 256).toNat)) 7 ty
      if ty = 2 then
        let p4 := nextNum p3.2
        let iv := p4.1
        let b3 := fupd (fupd (fupd (fupd b2
          13 (iv.emod 256).toNat)
          12 ((iv.fdiv 256).emod 256).toNat)
          11 ((iv.fdiv 65536).emod 256).toNat)
          10 ((iv.fdiv 16777216).emod 256).toNat
        (b3, 13, p4.2)
      else (b2, 9, p3.2)
    else (b1, 5, p1.2)
  let stD := dataLoop stA.2.2 stA.1 stA.2.1
  let idxD := stD.2
  -- derive header, version and lengths (lines 301-311)
  let bufH := fupd (fupd (fupd (fupd (fupd stD.1
    0 85) 1 170)
    2 (if uartNum = 0 then 0 else 3))
    4 (((idxD - 5) / 256) % 256)) 5 ((idxD - 5) % 256)
  let bufH2 :=
    if isDP then fupd (fupd bufH 8 (((idxD - 9) / 256) % 256)) 9 ((idxD - 9) % 256)
    else bufH
  -- checksum at tuyaCmd[++idx]: modulo-256 sum of the preceding bytes
  withChecksum ((List.range (idxD + 1)).map bufH2)

/-- `processTuyaMsg`: resolve the destination character ('M' is uart 0, 'W' is
uart 1, anything else is rejected) and encode.  The result is the byte sequence
written to that uart. -/
def processTuyaMsg (dest : Char) (nums : List Int) : Option (List Nat) :=
  if dest = 'M' then some (processTuyaMsgCore 0 nums)
  else if dest = 'W' then some (processTuyaMsgCore 1 nums)
  else none

/-! ### appSpecific.cpp: application state and events -/

/-- Values published to the UI by `wsJsonSend`: an integer printed with
`%u`/`%hu`/`%hhu`/`%d` (already converted to the printed numeral), a
temperature-like value printed with `%0.1f`, or an `HH:MM` pair printed with
`%02u:%02u`. -/
inductive WsVal where
  | num (n : Int)
  | dec (q : ℚ)
  | hm (h m : Nat)
deriving DecidableEq

/-- Observable outputs of the dispatcher and controller:
  * `ws key v` - a `wsJsonSend` publication to the UI;
  * `tuya dest nums` - a `processTuyaMsg` submission (destination character
    plus the numbers the command string carries);
  * `updApp key v` - an `updateAppStatus(key, value)` call made from
    `controlHeating`, carrying the integer printed into the value string;
  * `timeReq` / `wifiReq` - `sendLocalTime(true)` / `sendWifiStatus(true)`,
    whose emitted frames depend on the wall clock and Wi-Fi state (external
    collaborators, out of the embedded core). -/
inductive Event where
  | ws (key : String) (v : WsVal)
  | tuya (dest : Char) (nums : List Int)
  | updApp (key : String) (v : Int)
  | timeReq
  | wifiReq
deriving DecidableEq

/-- The appSpecific.cpp file-scope mutable state used by the claims
(`heatingElapsed`/session timing is wall-clock bookkeeping and is not
modelled).  `schedule` is the 8 x 6 slot table (hours, mins, temp high byte,
temp low byte, temp deg C * 10, seconds). -/
structure AppState where
  gotHeartbeat : Bool
  currentTemp : ℚ
  alpha : ℚ
  drift : Int
  ESPcontroller : Bool
  tgtTemp : ℚ
  backLash : ℚ
  baseCal : ℚ
  heatingOn : Bool
  schedule : Nat → Nat → Int
  slotCnt : Nat

/-- Initial values of the appSpecific.cpp globals (lines 16-27); the static
schedule array is zero-initialised and `slotCnt` starts at 0. -/
def initApp : AppState :=
  { gotHeartbeat := false, currentTemp := 15, alpha := 1, drift := 3,
    ESPcontroller := false, tgtTemp := 19, backLash := 0, baseCal := 0,
    heatingOn := false, schedule := fun _ _ => 0, slotCnt := 0 }

/-- Update one cell of the schedule table. -/
def schedUpd (sch : Nat → Nat → Int) (i j : Nat) (v : Int) : Nat → Nat → Int :=
  fun a b => if a = i ∧ b = j then v else sch a b

/-! ### appSpecific.cpp: ESP controller (`controlHeating`) -/

/-- Modelled from the spec: `smooth` is a utility defined outside the two
sources; the spec gives the exponential moving average
`smoothed = alpha * value + (1 - alpha) * smoothed`. -/
def smooth (val old a : ℚ) : ℚ := a * val + (1 - a) * old

/-- `controlHeating` (appSpecific.cpp lines 183-207): derive the floor
temperature from the MCU reading and the active calibration trick, smooth it,
and push a falsified calibration through `updateAppStatus("espCal", ...)` when
the hysteresis condition fires.  The emitted integer is the C cast
`(int32_t)((baseCal ± drift) * 10)`. -/
def controlHeating (st : AppState) (mcuTemp : ℚ) : AppState × List Event :=
  let floorTemp := (if st.heatingOn then st.baseCal + (st.drift : ℚ)
                    else st.baseCal - (st.drift : ℚ)) + mcuTemp
  let ct := smooth floorTemp st.currentTemp st.alpha
  let st' := { st with currentTemp := ct }
  if st.heatingOn then
    if ct > st.tgtTemp then
      (st', [Event.updApp "espCal" (ratTrunc ((st.baseCal + (st.drift : ℚ)) * 10))])
    else (st', [])
  else
    if ct + st.backLash < st.tgtTemp then
      (st', [Event.updApp "espCal" (ratTrunc ((st.baseCal - (st.drift : ℚ)) * 10))])
    else (st', [])

/-! ### appSpecific.cpp: datapoint dispatcher (`processDP`, `processMCUcmd`) -/

/-- The `setSchedule` UI publications (appSpecific.cpp lines 167-181): for each
of the 8 slots, the `HH:MM` pair and the temperature
`((high << 8) | low) / 10` printed with `%hu`. -/
def setScheduleEvents (m : Tuya) : List Event :=
  (List.range 8).flatMap (fun i =>
    [Event.ws (String.append "slotTime" (toString (i + 1)))
        (WsVal.hm (m.tuyaData (i * 4)) (m.tuyaData (i * 4 + 1))),
     Event.ws (String.append "slotTemp" (toString (i + 1)))
        (WsVal.num (((m.tuyaData (i * 4 + 2)) * 256 + m.tuyaData (i * 4 + 3)) / 10))])

/-- `processDP` (appSpecific.cpp lines 209-313): dispatch the decoded datapoint
in `mcuTuya` to its handler, updating the mirrored state and collecting the UI
publications and outbound submissions, in program order. -/
def processDP (m : Tuya) (st : AppState) : AppState × List Event :=
  let floatTemp : ℚ := (m.tuyaInt : ℚ) / 10
  match m.tuyaDP with
  | 1 => (st, [Event.ws "switchDisp" (WsVal.num (m.tuyaData 0))] ++
      (if m.tuyaData 0 ≠ 0 then [Event.timeReq, Event.wifiReq] else []))
  | 2 => ({ st with tgtTemp := floatTemp },
      [Event.ws "tgtTemp" (WsVal.dec floatTemp)])
  | 3 =>
    let (st1, evs) :=
      if st.ESPcontroller then controlHeating st floatTemp
      else ({ st with currentTemp := floatTemp }, [])
    (st1, [Event.ws "rawTemp" (WsVal.dec floatTemp)] ++ evs ++
      [Event.ws "currTemp" (WsVal.dec st1.currentTemp)])
  | 4 => (st, [Event.ws "progMode" (WsVal.num (m.tuyaData 0))])
  | 5 => ({ st with heatingOn := m.tuyaData 0 ≠ 0 },
      [Event.ws "outputOn" (WsVal.num (m.tuyaData 0))])
  | 8 => (st, [Event.ws "childLock" (WsVal.num (m.tuyaData 0))])
  | 13 => (st, [Event.ws "soundOn" (WsVal.num (m.tuyaData 0))])
  | 16 => (st, [Event.ws "fault" (WsVal.num (m.tuyaData 0))])
  | 20 =>
    if st.ESPcontroller = false then
      (st, [Event.ws "tempCal" (WsVal.dec floatTemp)])
    else (st, [])
  | 21 => (st, [Event.ws "roomMax" (WsVal.num (m.tuyaInt.emod 4294967296))])
  | 25 => (st, [Event.ws "tempSensor" (WsVal.num (m.tuyaData 0))])
  | 26 => (st, [Event.ws "frost" (WsVal.num (m.tuyaData 0))])
  | 31 => (st, if m.tuyaData 0 ≠ 0 then [Event.tuya 'M' [8]] else [])
  | 41 => (st, [Event.ws "backLight" (WsVal.num (m.tuyaData 0))])
  | 42 => (st, [Event.ws "daySetting" (WsVal.num (m.tuyaData 0))])
  | 43 => (st, setScheduleEvents m)
  | 101 => (st, [Event.ws "opReverse" (WsVal.num (m.tuyaData 0))])
  | 105 => ({ st with backLash := floatTemp },
      [Event.ws "tempLash" (WsVal.dec floatTemp)])
  | 107 => (st, [Event.ws "floorMax" (WsVal.num (m.tuyaInt.emod 4294967296))])
  | _ => (st, [])

/-- `doTuyaInit` (appSpecific.cpp lines 315-324): announce the program mode
(manual 0 when the ESP controls, auto 1 otherwise) and query all datapoints. -/
def doTuyaInitEvents (st : AppState) : List Event :=
  [Event.tuya 'M' [6, 4, 4, if st.ESPcontroller then 0 else 1],
   Event.tuya 'M' [8]]

/-- `processMCUcmd` (appSpecific.cpp lines 326-346): dispatch on the decoded
command number. -/
def processMCUcmd (m : Tuya) (st : AppState) : AppState × List Event :=
  match m.tuyaCmd with
  | 0 => ({ st with gotHeartbeat := true },
      if m.tuyaData 0 = 0 then doTuyaInitEvents st else [])
  | 1 => (st, [])
  | 2 => (st, [])
  | 3 => (st, [])
  | 4 => (st, [])
  | 7 => processDP m st
  | 28 => (st, [Event.timeReq])
  | _ => (st, [])

/-! ### appSpecific.cpp: UI update encoder (`updateAppStatus`) -/

/-- A console command submitted to `processTuyaMsg`: destination character and
the numbers printed into the string. -/
def TuyaMsg : Type := Char × List Int

instance : DecidableEq TuyaMsg := by
  unfold TuyaMsg
  infer_instance

/-- The `sscanf(value, "%hhu:%hhu", &hour, &mins)` parse of a slot time string
(each `%hhu` stores the parsed number narrowed to `uint8_t`).  A value that
does not match the format leaves the C variables unread garbage; the model
reads the minutes as 0 in that case (the claims only use well-formed times). -/
def parseHM (s : String) : Nat × Nat :=
  let l := skipBlanks s.toList
  let (h, r) := digitsAcc l 0
  match r with
  | ':' :: t => (h % 256, (digitsAcc (skipBlanks t) 0).1 % 256)
  | _ => (h % 256, 0)

/-- The slot index `variable[8] - '0' - 1` computed in `uint8_t` arithmetic
(so `slotTime0` yields 255, which fails the `slot < TIME_SLOTS` test). -/
def slotNum (varName : String) : Nat :=
  ((varName.toList.getD 8 (Char.ofNat 0)).toNat + 2 * 256 - 48 - 1) % 256

/-- The 32 numbers `%hhu`-printed into the datapoint-43 flush: for each slot,
columns 0..3 of the schedule table narrowed to `uint8_t`. -/
def tableNums (sch : Nat → Nat → Int) : List Int :=
  (List.range 8).flatMap (fun i =>
    [(sch i 0).emod 256, (sch i 1).emod 256, (sch i 2).emod 256, (sch i 3).emod 256])

/-- `updateAppStatus` (appSpecific.cpp lines 348-436): map a `(variable,
value)` UI update to an MCU datapoint command and/or internal state update.
The returned list holds the `processTuyaMsg` submission when one is made.
The command string `"M 6 " + fp` is represented by the destination 'M' and the
printed numbers `6 :: body`. -/
def updateAppStatus (st : AppState) (varName value : String) :
    AppState × List TuyaMsg :=
  let intVal := atoi value
  let fltVal := atof value
  -- the if-chain on the variable name, yielding the new state, the numbers
  -- printed after "M 6 ", and msgReady
  let r : AppState × List Int × Bool :=
    if varName = "tgtTemp" then (st, [(2 : Int), 2, intVal * 10], true)
    else if varName = "floorMax" then (st, [107, 2, intVal], true)
    else if varName = "tempSensor" then (st, [25, 4, intVal], true)
    else if varName = "progMode" then (st, [4, 4, intVal], true)
    else if varName = "frost" then (st, [26, 1, intVal], true)
    else if varName = "switchDisp" then (st, [1, 1, intVal], true)
    else if varName = "childLock" then (st, [8, 1, intVal], true)
    else if varName = "roomMax" then (st, [21, 2, intVal], true)
    else if varName = "tempCal" then
      ({ st with baseCal := fltVal }, [20, 2, ratTrunc (fltVal * 10)],
        st.ESPcontroller = false)
    else if varName = "espCal" then (st, [20, 2, intVal], true)
    else if varName = "tempLash" then (st, [105, 2, ratTrunc (fltVal * 10)], true)
    else if varName = "daySetting" then (st, [42, 4, intVal], true)
    else if varName = "backLight" then (st, [41, 4, intVal], true)
    else if varName = "doReset" then (st, [31, 1, intVal], true)
    else if varName = "doReverse" then (st, [101, 1, intVal], true)
    else if containsStr varName "slotTime" then
      let slot := slotNum varName
      if slot < 8 then
        let hm := parseHM value
        ({ st with
            schedule := schedUpd (schedUpd (schedUpd st.schedule
              slot 0 hm.1) slot 1 hm.2) slot 5 ((hm.1 * 60 + hm.2) * 60),
            slotCnt := st.slotCnt + 1 }, [], false)
      else (st, [], false)
    else if containsStr varName "slotTemp" then
      let slot := slotNum varName
      if slot < 8 then
        let temp := toInt16 (ratTrunc (fltVal * 10))
        ({ st with
            schedule := schedUpd (schedUpd (schedUpd st.schedule
              slot 2 ((temp.fdiv 256).emod 256)) slot 3 (temp.emod 256)) slot 4 temp,
            slotCnt := st.slotCnt + 1 }, [], false)
      else (st, [], false)
    else if varName = "alpha" then ({ st with alpha := fltVal }, [], false)
    else if varName = "drift" then ({ st with drift := intVal }, [], false)
    else if varName = "setCtrl" then
      ({ st with ESPcontroller := intVal ≠ 0 },
        [4, 4, if intVal ≠ 0 then 0 else 1], true)
    else (st, [], false)
  -- lines 423-432: when all slot edits are in, flush the whole table as one
  -- datapoint-43 command (overwriting fp) and reset the counter
  if r.1.slotCnt ≥ 16 then
    ({ r.1 with slotCnt := 0 },
      if configLoaded then [(('M', 6 :: 43 :: 0 :: tableNums r.1.schedule) : TuyaMsg)]
      else [])
  else
    (r.1, if configLoaded ∧ r.2.2 then [(('M', 6 :: r.2.1) : TuyaMsg)] else [])

/-- Fold a list of `(variable, value)` UI updates through `updateAppStatus`,
collecting the submitted commands. -/
def runEdits (st : AppState) : List (String × String) → AppState × List TuyaMsg
  | [] => (st, [])
  | e :: es =>
    ((runEdits (updateAppStatus st e.1 e.2).1 es).1,
      (updateAppStatus st e.1 e.2).2 ++
        (runEdits (updateAppStatus st e.1 e.2).1 es).2)

/-- A UI update that the slot-edit paths of `updateAppStatus` accept: the
variable name reaches the `slotTime`/`slotTemp` branch (strstr match, with
`slotTime` checked first) and carries a valid slot number. -/
def ValidEdit (varName : String) : Prop :=
  (containsStr varName "slotTime" = true ∧ slotNum varName < 8) ∨
  (containsStr varName "slotTime" = false ∧
    containsStr varName "slotTemp" = true ∧ slotNum varName < 8)

instance (v : String) : Decidable (ValidEdit v) := by
  unfold ValidEdit
  infer_instance

/-- A complete batch of 16 slot edits (one time and one temperature per
slot), as submitted from the UI. -/
def exEdits : List (String × String) :=
  [("slotTime1", "06:00"), ("slotTemp1", "19.5"),
   ("slotTime2", "08:30"), ("slotTemp2", "15"),
   ("slotTime3", "09:00"), ("slotTemp3", "15.5"),
   ("slotTime4", "12:30"), ("slotTemp4", "16"),
   ("slotTime5", "16:30"), ("slotTemp5", "17"),
   ("slotTime6", "22:00"), ("slotTemp6", "10"),
   ("slotTime7", "06:00"), ("slotTemp7", "19"),
   ("slotTime8", "22:00"), ("slotTemp8", "10")]

/-! ### appSpecific.cpp: schedule driver (`checkSchedule`, first call) -/

/-- The downward scan of `checkSchedule` (lines 112-116): starting at slot
`n`, decrement while the slot's start second exceeds the current time, going to
-1 when even slot 0 lies in the future.  `sec i` is `schedule[i][SECS_COL]`. -/
def findSlotGo (sec : Nat → Int) (t : Int) : Nat → Int
  | 0 => if sec 0 > t then -1 else 0
  | n + 1 => if sec (n + 1) > t then findSlotGo sec t n else ((n + 1 : Nat) : Int)

/-- The slot selected by the scan over slots 0..5 (`USED_SLOTS - 1 = 5`). -/
def findSlot (sec : Nat → Int) (t : Int) : Int := findSlotGo sec t 5

/-- First call of `checkSchedule` (lines 104-126): select the slot for the
current second-of-day `t` and compute the slot duration in milliseconds, with
the day-wrap correction when the remaining time crosses midnight. -/
def checkScheduleFirst (sec : Nat → Int) (t : Int) : Nat × Int :=
  let cs := findSlot sec t
  if cs < 0 ∨ cs = 5 then
    let d := sec 0 - t
    (5, (if d < 0 then d + 86400 else d) * 1000)
  else (cs.toNat, (sec (cs.toNat + 1) - t) * 1000)

/-- Slot advance of `checkSchedule` (lines 130-136): step to the next slot
modulo 6 and compute its duration in milliseconds (gap to its successor, with
the day-wrap rule from slot 5 to slot 0). -/
def advanceSlot (sec : Nat → Int) (cs : Nat) : Nat × Int :=
  let cs' := if cs + 1 ≥ 6 then 0 else cs + 1
  (cs', ((if cs' < 5 then sec (cs' + 1) else 86400 + sec 0) - sec cs') * 1000)

/-- Durations of `n` successive slot advances starting after slot `cs`. -/
def cycleDursGo (sec : Nat → Int) (cs : Nat) : Nat → List Int
  | 0 => []
  | n + 1 =>
    let (cs', d) := advanceSlot sec cs
    d :: cycleDursGo sec cs' n

/-- Durations of one full 6-slot cycle of advances from slot `cs`. -/
def cycleDurs (sec : Nat → Int) (cs : Nat) : List Int := cycleDursGo sec cs 6

/-! ### End-to-end inbound pipeline -/

/-- Combined system state for the inbound path: the port reassembler, the
global `mcuTuya`, and the application state. -/
structure SysState where
  port : PortState
  mt : Tuya
  app : AppState

/-- The initial system state. -/
def initSys : SysState :=
  { port := initPort, mt := initTuya, app := initApp }

/-- Feed one inbound byte: reassemble, and on delivery run `formatTuya` (with
processing) followed by `processMCUcmd`, as in sniffer.cpp lines 159-161. -/
def feedByte (sys : SysState) (b : Nat) : SysState × List Event :=
  match processTuyaByte sys.port b with
  | (p', none) => ({ sys with port := p' }, [])
  | (p', some (buf, len)) =>
    let mt' := formatTuya buf len true sys.mt
    let (app', evs) := processMCUcmd mt' sys.app
    ({ port := p', mt := mt', app := app' }, evs)

/-- Feed an inbound byte stream, collecting all emitted events. -/
def runStream (sys : SysState) (bs : List Nat) : SysState × List Event :=
  bs.foldl
    (fun acc b =>
      let (s', evs) := feedByte acc.1 b
      (s', acc.2 ++ evs))
    (sys, [])

/-- Concrete example inputs used by the claims' witnesses and
counterexamples. -/
def dp20report : Tuya := { initTuya with tuyaCmd := 7, tuyaDP := 20, tuyaInt := 25 }

/-- The spec's example weekday program: slot start seconds
21600, 30600, 32400, 45000, 59400, 79200 (scenarios S3 and S6). -/
def exSec : Nat → Int := fun i =>
  if i = 0 then 21600 else if i = 1 then 30600 else if i = 2 then 32400
  else if i = 3 then 45000 else if i = 4 then 59400 else if i = 5 then 79200
  else 0

/-- Equivalence of two port states up to the bytes beyond the write index:
same index, header flag and length, and equal buffers below the index.  All
reads `processTuyaByte` ever performs lie below the index, so related states
are indistinguishable. -/
def PortRel (a b : PortState) : Prop :=
  a.idx = b.idx ∧ a.haveHdr = b.haveHdr ∧ a.msgLen = b.msgLen ∧
  ∀ i, i < a.idx → a.buf i = b.buf i

/-! ### Claims -/

/-- C1: the UI update `(tgtTemp, "19")` processed by `updateAppStatus` submits
the command `M 6 2 2 190` to `processTuyaMsg`, and the byte sequence written to
the MCU port is exactly `55 aa 00 06 00 08 02 02 00 04 00 00 00 be d3`:
version 0x00, command 6, outer length 8, datapoint id 2, type int (2), inner
length 4, value 190 big-endian, and the final byte 0xd3 is the checksum (the
sum of all preceding bytes modulo 256). -/
theorem C1_tgtTemp_ui_update_encoding :
    (updateAppStatus initApp "tgtTemp" "19").2 = [(('M', [6, 2, 2, 190]) : TuyaMsg)] ∧
    processTuyaMsg 'M' [6, 2, 2, 190] =
      some [0x55, 0xaa, 0x00, 0x06, 0x00, 0x08, 0x02, 0x02, 0x00, 0x04,
            0x00, 0x00, 0x00, 0xbe, 0xd3] ∧
    (0xd3 : Nat) =
      ([0x55, 0xaa, 0x00, 0x06, 0x00, 0x08, 0x02, 0x02, 0x00, 0x04,
        0x00, 0x00, 0x00, 0xbe] : List Nat).sum % 256 := by
  refine ⟨by decide, by decide, by decide⟩

/-- C2, counterexample: in the stream
`55 aa 03 07 00 08 02 04 00 04 00 00 00 bc 06` the data-type byte (position 7)
is 0x04 = enum, not 0x02 = int, so `formatTuya` takes the enum branch and never
writes `mcuTuya.tuyaInt`; the dispatcher then sets the target temperature from
the stale `tuyaInt` (0 in the initial state), not to 18.8, and publishes
`tgtTemp=0.0`. -/
theorem C2_counterexample_enum_type_byte :
    (runStream initSys
        [0x55, 0xaa, 0x03, 0x07, 0x00, 0x08, 0x02, 0x04, 0x00, 0x04,
         0x00, 0x00, 0x00, 0xbc, 0x06]).1.app.tgtTemp ≠ (188 : ℚ) / 10 ∧
    Event.ws "tgtTemp" (WsVal.dec ((188 : ℚ) / 10)) ∉
      (runStream initSys
        [0x55, 0xaa, 0x03, 0x07, 0x00, 0x08, 0x02, 0x04, 0x00, 0x04,
         0x00, 0x00, 0x00, 0xbc, 0x06]).2 ∧
    (runStream initSys
        [0x55, 0xaa, 0x03, 0x07, 0x00, 0x08, 0x02, 0x04, 0x00, 0x04,
         0x00, 0x00, 0x00, 0xbc, 0x06]).2 =
      [Event.ws "tgtTemp" (WsVal.dec 0)] := by
  have hq : (((0 : Int) : ℚ)) / 10 = 0 := by norm_num
  have hT : (runStream initSys
      [0x55, 0xaa, 0x03, 0x07, 0x00, 0x08, 0x02, 0x04, 0x00, 0x04,
       0x00, 0x00, 0x00, 0xbc, 0x06]).1.app.tgtTemp = (((0 : Int) : ℚ)) / 10 := by
    rfl
  have hE : (runStream initSys
      [0x55, 0xaa, 0x03, 0x07, 0x00, 0x08, 0x02, 0x04, 0x00, 0x04,
       0x00, 0x00, 0x00, 0xbc, 0x06]).2 =
      [Event.ws "tgtTemp" (WsVal.dec ((((0 : Int) : ℚ)) / 10))] := by rfl
  rw [hq] at hT hE
  refine ⟨by rw [hT]; norm_num, by rw [hE]; simp, hE⟩

/-- C2, amended: with the type byte 0x02 (int) the stream
`55 aa 03 07 00 08 02 02 00 04 00 00 00 bc 06` fed through the inbound codec
and dispatcher sets the mirrored target temperature to 188 decidegrees
(tgtTemp = 18.8) and publishes the UI event `tgtTemp=18.8` (the trailing byte
is not verified by the decoder). -/
theorem C2_amended_int_frame_sets_tgtTemp :
    (runStream initSys
        [0x55, 0xaa, 0x03, 0x07, 0x00, 0x08, 0x02, 0x02, 0x00, 0x04,
         0x00, 0x00, 0x00, 0xbc, 0x06]).1.app.tgtTemp = (188 : ℚ) / 10 ∧
    (runStream initSys
        [0x55, 0xaa, 0x03, 0x07, 0x00, 0x08, 0x02, 0x02, 0x00, 0x04,
         0x00, 0x00, 0x00, 0xbc, 0x06]).2 =
      [Event.ws "tgtTemp" (WsVal.dec ((188 : ℚ) / 10))] := by
  refine ⟨by rfl, by rfl⟩

/-- C10: a delivered frame with command 7, declared type 2 (int) and total
length 12 (< 14) makes the decoder's 32-bit extraction read buffer positions
12 and 13 beyond the received bytes: after two runs that differ only in the
earlier frame (whose bytes 12 and 13 are 17,34 in one run and 51,68 in the
other), the identical 12-byte frame `55 aa 03 07 00 05 02 02 00 04 00 01`
yields different extracted integers (69922 = 0x00011122 versus
78660 = 0x00013344) and different mirrored target temperatures - the result
depends on stale buffer contents, with no guard that the frame holds 4 data
bytes. -/
theorem C10_short_int_frame_reads_stale_bytes :
    (runFrames initPort
        [85, 170, 3, 7, 0, 8, 99, 2, 0, 4, 0, 0, 17, 34, 0,
         85, 170, 3, 7, 0, 5, 2, 2, 0, 4, 0, 1]).2.getD 1 [] =
      [85, 170, 3, 7, 0, 5, 2, 2, 0, 4, 0, 1] ∧
    (runFrames initPort
        [85, 170, 3, 7, 0, 8, 99, 2, 0, 4, 0, 0, 51, 68, 0,
         85, 170, 3, 7, 0, 5, 2, 2, 0, 4, 0, 1]).2.getD 1 [] =
      [85, 170, 3, 7, 0, 5, 2, 2, 0, 4, 0, 1] ∧
    (runStream initSys
        [85, 170, 3, 7, 0, 8, 99, 2, 0, 4, 0, 0, 17, 34, 0,
         85, 170, 3, 7, 0, 5, 2, 2, 0, 4, 0, 1]).1.mt.tuyaInt = 69922 ∧
    (runStream initSys
        [85, 170, 3, 7, 0, 8, 99, 2, 0, 4, 0, 0, 51, 68, 0,
         85, 170, 3, 7, 0, 5, 2, 2, 0, 4, 0, 1]).1.mt.tuyaInt = 78660 ∧
    (runStream initSys
        [85, 170, 3, 7, 0, 8, 99, 2, 0, 4, 0, 0, 17, 34, 0,
         85, 170, 3, 7, 0, 5, 2, 2, 0, 4, 0, 1]).1.app.tgtTemp ≠
      (runStream initSys
        [85, 170, 3, 7, 0, 8, 99, 2, 0, 4, 0, 0, 51, 68, 0,
         85, 170, 3, 7, 0, 5, 2, 2, 0, 4, 0, 1]).1.app.tgtTemp := by
  have hA : (runStream initSys
      [85, 170, 3, 7, 0, 8, 99, 2, 0, 4, 0, 0, 17, 34, 0,
       85, 170, 3, 7, 0, 5, 2, 2, 0, 4, 0, 1]).1.app.tgtTemp =
      (((69922 : Int) : ℚ)) / 10 := by rfl
  have hB : (runStream initSys
      [85, 170, 3, 7, 0, 8, 99, 2, 0, 4, 0, 0, 51, 68, 0,
       85, 170, 3, 7, 0, 5, 2, 2, 0, 4, 0, 1]).1.app.tgtTemp =
      (((78660 : Int) : ℚ)) / 10 := by rfl
  refine ⟨by rfl, by rfl, by rfl, by rfl, ?_⟩
  rw [hA, hB]
  norm_num

/-- Truncation of a rational that happens to be an integer is that integer. -/
theorem ratTrunc_intCast (k : ℤ) : ratTrunc (k : ℚ) = k := by
  simp [ratTrunc, Rat.num_intCast, Rat.den_intCast]

/-- C4: for every temperature sample consumed by the ESP controller, with `c`
the smoothed estimate after the update: if heating is off and
`c + backlash < target`, exactly one espCal actuation with value
`(int32_t)((base_cal - drift) * 10)` is emitted; if heating is on and
`c > target`, exactly one espCal actuation with value
`(int32_t)((base_cal + drift) * 10)` is emitted; no actuation is emitted when
`c` lies inside `[target - backlash, target]`.  The truncating cast is exact
whenever the product is an integer (last two conjuncts). -/
theorem C4_controlHeating_hysteresis (st : AppState) (T c : ℚ)
    (hc : c = smooth ((if st.heatingOn then st.baseCal + (st.drift : ℚ)
      else st.baseCal - (st.drift : ℚ)) + T) st.currentTemp st.alpha) :
    (st.heatingOn = false → c + st.backLash < st.tgtTemp →
      (controlHeating st T).2 =
        [Event.updApp "espCal" (ratTrunc ((st.baseCal - (st.drift : ℚ)) * 10))]) ∧
    (st.heatingOn = true → st.tgtTemp < c →
      (controlHeating st T).2 =
        [Event.updApp "espCal" (ratTrunc ((st.baseCal + (st.drift : ℚ)) * 10))]) ∧
    (st.tgtTemp - st.backLash ≤ c → c ≤ st.tgtTemp → (controlHeating st T).2 = []) ∧
    (controlHeating st T).1.currentTemp = c ∧
    (∀ k : ℤ, (st.baseCal - (st.drift : ℚ)) * 10 = (k : ℚ) →
      ratTrunc ((st.baseCal - (st.drift : ℚ)) * 10) = k) ∧
    (∀ k : ℤ, (st.baseCal + (st.drift : ℚ)) * 10 = (k : ℚ) →
      ratTrunc ((st.baseCal + (st.drift : ℚ)) * 10) = k) := by
  subst hc
  unfold controlHeating
  cases hOn : st.heatingOn with
  | false =>
    simp only [hOn, Bool.false_eq_true, if_false]
    refine ⟨?_, ?_, ?_, ?_, ?_, ?_⟩
    · intro _ hLt
      rw [if_pos hLt]
    · intro h _
      exact absurd h (by simp)
    · intro hLo hHi
      rw [if_neg (by intro h; linarith)]
    · split_ifs <;> rfl
    · intro k hk
      rw [hk, ratTrunc_intCast]
    · intro k hk
      rw [hk, ratTrunc_intCast]
  | true =>
    simp only [hOn, if_true]
    refine ⟨?_, ?_, ?_, ?_, ?_, ?_⟩
    · intro h _
      exact absurd h (by simp)
    · intro _ hGt
      rw [if_pos hGt]
    · intro hLo hHi
      rw [if_neg (not_lt.mpr hHi)]
    · split_ifs <;> rfl
    · intro k hk
      rw [hk, ratTrunc_intCast]
    · intro k hk
      rw [hk, ratTrunc_intCast]

/-- C4 witness: the spec's scenario S4 (`base_cal=0`, `drift=3`, `alpha=1`,
`backlash=0.5`, `target=19`, heating off) with the MCU reporting 18.4: the
smoothed estimate becomes 15.4 and one `espCal = -30` actuation is emitted. -/
theorem C4_controlHeating_hysteresis_witness :
    (controlHeating { initApp with backLash := 1 / 2 } (184 / 10)).2 =
      [Event.updApp "espCal" (-30)] := by
  have h := C4_controlHeating_hysteresis { initApp with backLash := 1 / 2 }
    (184 / 10) (77 / 5) (by norm_num [smooth, initApp])
  have h1 := h.1 (by rfl) (by norm_num [initApp])
  have h5 := h.2.2.2.2.1 (-30) (by norm_num [initApp])
  rw [h1, h5]

/-- Every encoder output is some body followed by its checksum byte. -/
theorem processTuyaMsgCore_shape (u : Nat) (nums : List Int) :
    ∃ body, processTuyaMsgCore u nums = withChecksum body :=
  ⟨_, rfl⟩

/-- C9: for every frame the outbound encoder accepts and emits, the final byte
(at the checksum position) equals the sum of all preceding bytes modulo
256. -/
theorem C9_outbound_checksum (dest : Char) (nums : List Int) (fr : List Nat)
    (h : processTuyaMsg dest nums = some fr) :
    fr ≠ [] ∧ fr.dropLast.sum % 256 = fr.getLastD 0 := by
  have hfr : ∃ u, fr = processTuyaMsgCore u nums := by
    unfold processTuyaMsg at h
    split_ifs at h with h1 h2
    · exact ⟨0, (Option.some_inj.mp h).symm⟩
    · exact ⟨1, (Option.some_inj.mp h).symm⟩
  obtain ⟨u, rfl⟩ := hfr
  obtain ⟨body, hb⟩ := processTuyaMsgCore_shape u nums
  rw [hb]
  unfold withChecksum
  constructor
  · simp
  · rw [List.dropLast_concat, List.getLastD_concat]

/-- C9 witness: the heartbeat command `M 0` encodes to
`55 aa 00 00 00 00 ff`, whose final byte 0xff is the sum of the preceding
bytes modulo 256. -/
theorem C9_outbound_checksum_witness :
    processTuyaMsg 'M' [0] = some [85, 170, 0, 0, 0, 0, 255] ∧
    ([85, 170, 0, 0, 0, 0, 255] : List Nat) ≠ [] ∧
    ([85, 170, 0, 0, 0, 0, 255] : List Nat).dropLast.sum % 256 =
      ([85, 170, 0, 0, 0, 0, 255] : List Nat).getLastD 0 :=
  ⟨by decide, C9_outbound_checksum 'M' [0] [85, 170, 0, 0, 0, 0, 255] (by decide)⟩

/-- C8, counterexample: an inbound datapoint-20 report (command 7, value 25 =
2.5 degrees) processed with `esp_controls_heating` false publishes `tempCal`
but does NOT store the reported offset into `base_cal`: the handler leaves the
application state unchanged (`base_cal` stays 0, not 2.5).  `base_cal` is only
written by the UI `tempCal` path in `updateAppStatus`. -/
theorem C8_counterexample_dp20_does_not_set_baseCal :
    processDP dp20report initApp =
      (initApp, [Event.ws "tempCal" (WsVal.dec ((((25 : Int) : ℚ)) / 10))]) ∧
    (processDP dp20report initApp).1.baseCal = 0 ∧
    (((25 : Int) : ℚ)) / 10 = 5 / 2 ∧
    (0 : ℚ) ≠ 5 / 2 := by
  refine ⟨by rfl, by rfl, by norm_num, by norm_num⟩

/-- C8, amended: for every inbound datapoint-20 report, when
`esp_controls_heating` is true the report is ignored (no UI publication and no
mirrored-state change); when it is false the handler publishes `tempCal` as
the reported value divided by 10 and leaves `base_cal` unchanged - `base_cal`
takes a calibration offset only when a `tempCal` update reaches the encoder
`updateAppStatus`, which stores the parsed value. -/
theorem C8_dp20_amended (m : Tuya) (st : AppState) (hdp : m.tuyaDP = 20) :
    (st.ESPcontroller = true → processDP m st = (st, [])) ∧
    (st.ESPcontroller = false →
      processDP m st = (st, [Event.ws "tempCal" (WsVal.dec ((m.tuyaInt : ℚ) / 10))])) ∧
    (∀ v, (updateAppStatus st "tempCal" v).1.baseCal = atof v) := by
  refine ⟨?_, ?_, ?_⟩
  · intro hesp
    unfold processDP
    rw [hdp]
    simp [hesp]
  · intro hesp
    unfold processDP
    rw [hdp]
    simp [hesp]
  · intro v
    unfold updateAppStatus
    simp only [reduceCtorEq, String.reduceEq, if_false, if_true, reduceIte]
    split_ifs <;> rfl

/-- C8 witness: concrete instantiation at the initial state (MCU controls):
the report with value 25 publishes `tempCal = 2.5`, and a UI `tempCal = "2.5"`
update stores 2.5 into `base_cal`. -/
theorem C8_dp20_amended_witness :
    processDP dp20report initApp =
      (initApp, [Event.ws "tempCal" (WsVal.dec ((dp20report.tuyaInt : ℚ) / 10))]) ∧
    (updateAppStatus initApp "tempCal" "2.5").1.baseCal = atof "2.5" ∧
    atof "2.5" = 5 / 2 :=
  ⟨(C8_dp20_amended dp20report initApp rfl).2.1 rfl,
   (C8_dp20_amended dp20report initApp rfl).2.2 "2.5",
   by simp +decide [atof, atofL, atofUnsigned, skipBlanks, digitsAcc, digitsCnt]
      norm_num⟩

/-- The downward scan never exceeds its starting slot. -/
theorem findSlotGo_le (sec : Nat → Int) (t : Int) (n : Nat) :
    findSlotGo sec t n ≤ (n : Int) := by
  induction n with
  | zero =>
    unfold findSlotGo
    split_ifs <;> omega
  | succ n ih =>
    unfold findSlotGo
    split_ifs with h
    · omega
    · omega

/-- When the scan stops at a slot, that slot's start second is at most `t`. -/
theorem findSlotGo_mem (sec : Nat → Int) (t : Int) (n : Nat)
    (h : 0 ≤ findSlotGo sec t n) : sec (findSlotGo sec t n).toNat ≤ t := by
  induction n with
  | zero =>
    unfold findSlotGo at h ⊢
    split_ifs at h ⊢ with hgt
    · omega
    · simpa using not_lt.mp hgt
  | succ n ih =>
    unfold findSlotGo at h ⊢
    split_ifs at h ⊢ with hgt
    · exact ih h
    · simpa using not_lt.mp hgt

/-- The scan stops at the largest qualifying slot: every slot `i ≤ n` whose
start second is at most `t` is at most the scan result. -/
theorem findSlotGo_max (sec : Nat → Int) (t : Int) (n : Nat) :
    ∀ i, i ≤ n → sec i ≤ t → (i : Int) ≤ findSlotGo sec t n := by
  induction n with
  | zero =>
    intro i hi hit
    interval_cases i
    unfold findSlotGo
    split_ifs with hgt
    · omega
    · omega
  | succ n ih =>
    intro i hi hit
    unfold findSlotGo
    split_ifs with hgt
    · rcases Nat.lt_or_ge i (n + 1) with h | h
      · exact ih i (by omega) hit
      · have : i = n + 1 := by omega
        subst this
        omega
    · omega

/-- C5: on the schedule driver's first call with slots 0..5 sorted ascending:
when some slot starts at or before `t`, the selected slot is the largest such
index (with the result, and the slot it names, satisfying the stated bounds);
when no slot qualifies the driver re-seats slot 5; whenever the result is slot
5 the duration is `schedule[0].second_of_day - t`, plus 86400 when that is
negative (stored in milliseconds).  In particular, for the example program and
`t = 82800` the result is slot 5 with duration 25200 s = 25200000 ms. -/
theorem C5_checkSchedule_first_call (sec : Nat → Int) (t : Int)
    (hs : ∀ i j, i ≤ j → j ≤ 5 → sec i ≤ sec j) :
    ((∃ i, i ≤ 5 ∧ sec i ≤ t) →
      (checkScheduleFirst sec t).1 ≤ 5 ∧ sec (checkScheduleFirst sec t).1 ≤ t ∧
      ∀ i, i ≤ 5 → sec i ≤ t → i ≤ (checkScheduleFirst sec t).1) ∧
    ((∀ i, i ≤ 5 → t < sec i) → (checkScheduleFirst sec t).1 = 5) ∧
    ((checkScheduleFirst sec t).1 = 5 →
      (checkScheduleFirst sec t).2 =
        (if sec 0 - t < 0 then sec 0 - t + 86400 else sec 0 - t) * 1000) ∧
    checkScheduleFirst exSec 82800 = (5, 25200000) := by
  refine ⟨?_, ?_, ?_, by decide⟩
  · rintro ⟨i, hi5, hit⟩
    have hnn : 0 ≤ findSlot sec t :=
      le_trans (by omega) (findSlotGo_max sec t 5 i hi5 hit)
    have hle : findSlot sec t ≤ 5 := findSlotGo_le sec t 5
    have hmem : sec (findSlot sec t).toNat ≤ t := findSlotGo_mem sec t 5 hnn
    have hmax : ∀ j, j ≤ 5 → sec j ≤ t → (j : Int) ≤ findSlot sec t :=
      findSlotGo_max sec t 5
    by_cases hco : findSlot sec t < 0 ∨ findSlot sec t = 5
    · have ht5 : (findSlot sec t).toNat = 5 := by
        rcases hco with h | h <;> omega
      simp only [checkScheduleFirst, if_pos hco]
      exact ⟨le_refl 5, ht5 ▸ hmem, fun j hj _ => hj⟩
    · simp only [checkScheduleFirst, if_neg hco]
      push_neg at hco
      refine ⟨by omega, hmem, ?_⟩
      intro j hj hjt
      have := hmax j hj hjt
      omega
  · intro hall
    have hneg : findSlot sec t < 0 := by
      by_contra hge
      push_neg at hge
      have hle : findSlot sec t ≤ 5 := findSlotGo_le sec t 5
      have hmem : sec (findSlot sec t).toNat ≤ t := findSlotGo_mem sec t 5 hge
      have h2 := hall (findSlot sec t).toNat (by omega)
      exact absurd hmem (not_le.mpr h2)
    simp only [checkScheduleFirst, if_pos (Or.inl hneg)]
  · intro h5
    by_cases hco : findSlot sec t < 0 ∨ findSlot sec t = 5
    · simp only [checkScheduleFirst, if_pos hco]
    · exfalso
      simp only [checkScheduleFirst, if_neg hco] at h5
      push_neg at hco
      have hle : findSlot sec t ≤ 5 := findSlotGo_le sec t 5
      exact hco.2 (by omega)

/-- C5 witness: the example program sorted ascending, instantiated at
`t = 82800`. -/
theorem C5_checkSchedule_first_call_witness :
    checkScheduleFirst exSec 82800 = (5, 25200000) :=
  (C5_checkSchedule_first_call exSec 82800
    (fun i j hij hj5 => by interval_cases j <;> interval_cases i <;> decide)).2.2.2

/-- Six advances from any slot telescope around the day: their durations sum
to 86400 s = 86400000 ms. -/
theorem cycleDurs_sum (sec : Nat → Int) (cs : Nat) (hcs : cs ≤ 5) :
    (cycleDurs sec cs).sum = 86400000 := by
  interval_cases cs <;> simp [cycleDurs, cycleDursGo, advanceSlot] <;> ring

/-- The first call always selects a slot index in 0..5. -/
theorem checkScheduleFirst_slot_le (sec : Nat → Int) (t : Int) :
    (checkScheduleFirst sec t).1 ≤ 5 := by
  by_cases hco : findSlot sec t < 0 ∨ findSlot sec t = 5
  · simp only [checkScheduleFirst, if_pos hco]
    omega
  · simp only [checkScheduleFirst, if_neg hco]
    have h5 : findSlot sec t ≤ 5 := findSlotGo_le sec t 5
    omega

/-- C6: for any sorted 6-tuple of slot seconds in [0, 86399] and any `t` in
[0, 86399], the schedule driver's first call selects exactly one slot (a
single well-defined index in 0..5), and the six `slot_duration` values of one
full cycle of advances from that slot sum to 86400 s (86400000 ms). -/
theorem C6_schedule_cycle_coverage (sec : Nat → Int) (t : Int)
    (hs : ∀ i j, i ≤ j → j ≤ 5 → sec i ≤ sec j)
    (hb : ∀ i, i ≤ 5 → 0 ≤ sec i ∧ sec i ≤ 86399)
    (ht : 0 ≤ t ∧ t ≤ 86399) :
    (checkScheduleFirst sec t).1 ≤ 5 ∧
    (cycleDurs sec (checkScheduleFirst sec t).1).sum = 86400000 :=
  ⟨checkScheduleFirst_slot_le sec t,
   cycleDurs_sum sec _ (checkScheduleFirst_slot_le sec t)⟩

/-- C6 witness: the example program at `t = 40000` (scenario S3's instant). -/
theorem C6_schedule_cycle_coverage_witness :
    (checkScheduleFirst exSec 40000).1 ≤ 5 ∧
    (cycleDurs exSec (checkScheduleFirst exSec 40000).1).sum = 86400000 :=
  C6_schedule_cycle_coverage exSec 40000
    (fun i j hij hj5 => by interval_cases j <;> interval_cases i <;> decide)
    (fun i hi => by interval_cases i <;> decide)
    (by decide)

/-- Writing the same byte preserves the relation. -/
theorem PortRel.write {a b : PortState} (h : PortRel a b) (x : Nat) :
    PortRel (ptbWrite a x) (ptbWrite b x) := by
  obtain ⟨hidx, hhdr, hlen, hbuf⟩ := h
  refine ⟨by simp [ptbWrite, hidx], by simp [ptbWrite, hhdr],
    by simp [ptbWrite, hlen], ?_⟩
  intro i hi
  simp only [ptbWrite] at hi ⊢
  by_cases he : i = a.idx
  · subst he
    simp [fupd, hidx]
  · have hlt : i < a.idx := by omega
    have heb : ¬ i = b.idx := by rw [← hidx]; exact he
    simp only [fupd]
    rw [if_neg he, if_neg heb]
    exact hbuf i hlt

/-- The header scan preserves the relation. -/
theorem PortRel.header {a b : PortState} (h : PortRel a b) :
    PortRel (ptbHeader a) (ptbHeader b) := by
  obtain ⟨hidx, hhdr, hlen, hbuf⟩ := h
  unfold ptbHeader
  by_cases h1 : 1 < a.idx ∧ a.haveHdr = false
  · have h1b : 1 < b.idx ∧ b.haveHdr = false := by
      constructor
      · omega
      · rw [← hhdr]; exact h1.2
    rw [if_pos h1, if_pos h1b]
    have e2 : a.buf (a.idx - 2) = b.buf (b.idx - 2) := by
      rw [← hidx]; exact hbuf _ (by omega)
    have e1 : a.buf (a.idx - 1) = b.buf (b.idx - 1) := by
      rw [← hidx]; exact hbuf _ (by omega)
    by_cases h2 : a.buf (a.idx - 2) * 256 + a.buf (a.idx - 1) = 21930
    · have h2b : b.buf (b.idx - 2) * 256 + b.buf (b.idx - 1) = 21930 := by
        rw [← e2, ← e1]; exact h2
      rw [if_pos h2, if_pos h2b]
      refine ⟨rfl, rfl, hlen, ?_⟩
      intro i hi
      simp only at hi
      interval_cases i <;> simp [fupd, e2, e1]
    · have h2b : ¬ b.buf (b.idx - 2) * 256 + b.buf (b.idx - 1) = 21930 := by
        rw [← e2, ← e1]; exact h2
      rw [if_neg h2, if_neg h2b]
      exact ⟨hidx, hhdr, hlen, hbuf⟩
  · have h1b : ¬ (1 < b.idx ∧ b.haveHdr = false) := by
      rw [← hidx, ← hhdr]; exact h1
    rw [if_neg h1, if_neg h1b]
    exact ⟨hidx, hhdr, hlen, hbuf⟩

/-- The length-field read preserves the relation. -/
theorem PortRel.msgLenStep {a b : PortState} (h : PortRel a b) :
    PortRel (ptbMsgLen a) (ptbMsgLen b) := by
  obtain ⟨hidx, hhdr, hlen, hbuf⟩ := h
  unfold ptbMsgLen
  by_cases h1 : a.idx = 6 ∧ a.haveHdr = true
  · have h1b : b.idx = 6 ∧ b.haveHdr = true := by
      rw [← hidx, ← hhdr]; exact h1
    rw [if_pos h1, if_pos h1b]
    refine ⟨hidx, hhdr, ?_, hbuf⟩
    simp only
    rw [hbuf 4 (by omega), hbuf 5 (by omega)]
  · have h1b : ¬ (b.idx = 6 ∧ b.haveHdr = true) := by
      rw [← hidx, ← hhdr]; exact h1
    rw [if_neg h1, if_neg h1b]
    exact ⟨hidx, hhdr, hlen, hbuf⟩

/-- One reassembler step on related states takes the same branch, delivers the
same frame bytes, and yields related states. -/
theorem processTuyaByte_bisim {a b : PortState} (h : PortRel a b) (x : Nat) :
    PortRel (processTuyaByte a x).1 (processTuyaByte b x).1 ∧
    (processTuyaByte a x).2.map (fun fn => (List.range fn.2).map fn.1) =
      (processTuyaByte b x).2.map (fun fn => (List.range fn.2).map fn.1) := by
  have h1 : PortRel (ptbMsgLen (ptbHeader (ptbWrite a x)))
      (ptbMsgLen (ptbHeader (ptbWrite b x))) :=
    ((h.write x).header).msgLenStep
  obtain ⟨hidx, hhdr, hlen, hbuf⟩ := h1
  unfold processTuyaByte
  by_cases hc : (ptbMsgLen (ptbHeader (ptbWrite a x))).idx =
      min ((ptbMsgLen (ptbHeader (ptbWrite a x))).msgLen + 7) (BUFF_LEN - 10)
  · have hcb : (ptbMsgLen (ptbHeader (ptbWrite b x))).idx =
        min ((ptbMsgLen (ptbHeader (ptbWrite b x))).msgLen + 7) (BUFF_LEN - 10) := by
      rw [← hidx, ← hlen]; exact hc
    rw [if_pos hc, if_pos hcb]
    refine ⟨⟨rfl, rfl, rfl, fun i hi => absurd hi (by simp)⟩, ?_⟩
    simp only [Option.map_some', Option.some_inj]
    rw [← hidx]
    exact List.map_congr_left (fun i hi => hbuf i (List.mem_range.mp hi))
  · have hcb : ¬ (ptbMsgLen (ptbHeader (ptbWrite b x))).idx =
        min ((ptbMsgLen (ptbHeader (ptbWrite b x))).msgLen + 7) (BUFF_LEN - 10) := by
      rw [← hidx, ← hlen]; exact hc
    rw [if_neg hc, if_neg hcb]
    exact ⟨⟨hidx, hhdr, hlen, hbuf⟩, rfl⟩

/-- Related states produce identical frame sequences on any byte stream. -/
theorem runFrames_bisim {a b : PortState} (h : PortRel a b) (bs : List Nat) :
    (runFrames a bs).2 = (runFrames b bs).2 ∧
    PortRel (runFrames a bs).1 (runFrames b bs).1 := by
  induction bs generalizing a b with
  | nil => exact ⟨rfl, h⟩
  | cons x bs ih =>
    have hb := processTuyaByte_bisim h x
    unfold runFrames
    rcases hA : processTuyaByte a x with ⟨sA, oA⟩
    rcases hB : processTuyaByte b x with ⟨sB, oB⟩
    rw [hA, hB] at hb
    obtain ⟨hstep, hout⟩ := hb
    simp only at hstep hout
    cases oA with
    | none =>
      cases oB with
      | none => exact ih hstep
      | some fnB => simp at hout
    | some fnA =>
      cases oB with
      | none => simp at hout
      | some fnB =>
        simp only [Option.map_some', Option.some_inj] at hout
        obtain ⟨h2, h3⟩ := ih hstep
        simp only
        rw [hout, h2]
        exact ⟨rfl, h3⟩

/-- The header scan is a no-op when the two newest bytes do not spell
0x55 0xAA. -/
theorem ptbHeader_noMatch {s : PortState}
    (h : s.buf (s.idx - 2) * 256 + s.buf (s.idx - 1) ≠ 21930) :
    ptbHeader s = s := by
  unfold ptbHeader
  by_cases h1 : 1 < s.idx ∧ s.haveHdr = false
  · rw [if_pos h1, if_neg h]
  · rw [if_neg h1]

/-- The length-field read is a no-op before the header is seen. -/
theorem ptbMsgLen_hdrFalse {s : PortState} (h : s.haveHdr = false) :
    ptbMsgLen s = s := by
  unfold ptbMsgLen
  rw [if_neg]
  intro hc
  rw [h] at hc
  exact absurd hc.2 (by simp)

/-- Byte values stay below 256. -/
theorem mod256_lt (b : Nat) : b % 256 < 256 := Nat.mod_lt _ (by norm_num)

/-- Feeding one byte that is not 0x55 (after `uint8_t` narrowing) to a port
that has not yet seen a header just appends it: nothing is delivered and no
header is recognised. -/
theorem junk_step (s : PortState) (b : Nat) (hb : b % 256 ≠ 85)
    (h1 : s.haveHdr = false) (h2 : s.msgLen = BUFF_LEN - 10)
    (h3 : ∀ i, i < s.idx → s.buf i ≠ 85)
    (hcap : s.idx + 1 < BUFF_LEN - 10) :
    processTuyaByte s b = (ptbWrite s b, none) := by
  have hh : ptbHeader (ptbWrite s b) = ptbWrite s b := by
    apply ptbHeader_noMatch
    show fupd s.buf s.idx (b % 256) (s.idx + 1 - 2) * 256 +
      fupd s.buf s.idx (b % 256) (s.idx + 1 - 1) ≠ 21930
    have hy := mod256_lt b
    by_cases h0 : s.idx = 0
    · rw [h0]
      simp only [fupd]
      norm_num
      omega
    · have ha : s.idx + 1 - 2 = s.idx - 1 := by omega
      have hb2 : s.idx + 1 - 1 = s.idx := by omega
      rw [ha, hb2]
      have hx := h3 (s.idx - 1) (by omega)
      simp only [fupd, eq_self_iff_true, if_true]
      rw [if_neg (show ¬ (s.idx - 1 = s.idx) from by omega)]
      omega
  have hm : ptbMsgLen (ptbWrite s b) = ptbWrite s b :=
    ptbMsgLen_hdrFalse (by simp [ptbWrite, h1])
  unfold processTuyaByte
  rw [hh, hm]
  rw [if_neg]
  simp only [ptbWrite, h2]
  omega

/-- Running a stream of non-0x55 bytes (after narrowing) from a header-less
port below the buffer limit delivers nothing and simply advances the index. -/
theorem junk_run (J : List Nat) : ∀ (s : PortState),
    (∀ b ∈ J, b % 256 ≠ 85) →
    s.haveHdr = false → s.msgLen = BUFF_LEN - 10 →
    (∀ i, i < s.idx → s.buf i ≠ 85) →
    s.idx + J.length + 1 < BUFF_LEN - 10 →
    (runFrames s J).2 = [] ∧
    (runFrames s J).1.idx = s.idx + J.length ∧
    (runFrames s J).1.haveHdr = false ∧
    (runFrames s J).1.msgLen = BUFF_LEN - 10 ∧
    (∀ i, i < (runFrames s J).1.idx → (runFrames s J).1.buf i ≠ 85) := by
  induction J with
  | nil =>
    intro s hJ h1 h2 h3 hcap
    exact ⟨rfl, by simp [runFrames], h1, h2, h3⟩
  | cons b J ih =>
    intro s hJ h1 h2 h3 hcap
    have hlen : (b :: J).length = J.length + 1 := by simp
    have hstep := junk_step s b (hJ b (by simp)) h1 h2 h3 (by omega)
    have h3w : ∀ i, i < (ptbWrite s b).idx → (ptbWrite s b).buf i ≠ 85 := by
      intro i hi
      simp only [ptbWrite] at hi ⊢
      by_cases he : i = s.idx
      · subst he
        simp only [fupd, if_pos rfl]
        exact hJ b (by simp)
      · simp only [fupd, if_neg he]
        exact h3 i (by omega)
    have ihs := ih (ptbWrite s b) (fun x hx => hJ x (by simp [hx]))
      (by simp [ptbWrite, h1]) (by simp [ptbWrite, h2]) h3w
      (by simp only [ptbWrite]; omega)
    unfold runFrames
    rw [hstep]
    refine ⟨ihs.1, ?_, ihs.2.2.1, ihs.2.2.2.1, ihs.2.2.2.2⟩
    rw [ihs.2.1]
    simp [ptbWrite]
    omega

/-- The length-field read is a no-op away from index 6. -/
theorem ptbMsgLen_idxNe {s : PortState} (h : s.idx ≠ 6) : ptbMsgLen s = s := by
  unfold ptbMsgLen
  rw [if_neg]
  intro hc
  exact h hc.1

/-- Feeding 0x55 0xAA to a port that has not yet seen a header (with any
residue below the buffer limit) delivers nothing and re-synchronises: the
index restarts at 2 behind a recognised header, and buffer cells 0 and 1 hold
0x55 0xAA. -/
theorem resync_run (s : PortState)
    (h1 : s.haveHdr = false) (h2 : s.msgLen = BUFF_LEN - 10)
    (hcap : s.idx + 2 < BUFF_LEN - 10) :
    (runFrames s [85, 170]).2 = [] ∧
    (runFrames s [85, 170]).1.idx = 2 ∧
    (runFrames s [85, 170]).1.haveHdr = true ∧
    (runFrames s [85, 170]).1.msgLen = BUFF_LEN - 10 ∧
    (runFrames s [85, 170]).1.buf 0 = 85 ∧
    (runFrames s [85, 170]).1.buf 1 = 170 := by
  have e1 : processTuyaByte s 85 = (ptbWrite s 85, none) := by
    have hh : ptbHeader (ptbWrite s 85) = ptbWrite s 85 := by
      apply ptbHeader_noMatch
      show fupd s.buf s.idx (85 % 256) (s.idx + 1 - 2) * 256 +
        fupd s.buf s.idx (85 % 256) (s.idx + 1 - 1) ≠ 21930
      have hb2 : s.idx + 1 - 1 = s.idx := by omega
      rw [hb2]
      simp only [fupd, eq_self_iff_true, if_true]
      intro hEq
      omega
    have hm : ptbMsgLen (ptbWrite s 85) = ptbWrite s 85 :=
      ptbMsgLen_hdrFalse (by simp [ptbWrite, h1])
    unfold processTuyaByte
    rw [hh, hm]
    rw [if_neg]
    simp only [ptbWrite, h2]
    omega
  have hread2 : (ptbWrite (ptbWrite s 85) 170).buf
      ((ptbWrite (ptbWrite s 85) 170).idx - 2) = 85 := by
    simp only [ptbWrite, fupd]
    rw [show s.idx + 1 + 1 - 2 = s.idx from by omega]
    rw [if_neg (by omega), if_pos rfl]
  have hread1 : (ptbWrite (ptbWrite s 85) 170).buf
      ((ptbWrite (ptbWrite s 85) 170).idx - 1) = 170 := by
    simp only [ptbWrite, fupd]
    rw [show s.idx + 1 + 1 - 1 = s.idx + 1 from by omega]
    rw [if_pos rfl]
  have e2 : processTuyaByte (ptbWrite s 85) 170 =
      ({ idx := 2, haveHdr := true, msgLen := s.msgLen,
         buf := fupd (fupd (ptbWrite (ptbWrite s 85) 170).buf 0 85) 1 170 },
        none) := by
    have hcond : 1 < (ptbWrite (ptbWrite s 85) 170).idx ∧
        (ptbWrite (ptbWrite s 85) 170).haveHdr = false := by
      refine ⟨by simp [ptbWrite], by simp [ptbWrite, h1]⟩
    have hhit : (ptbWrite (ptbWrite s 85) 170).buf
        ((ptbWrite (ptbWrite s 85) 170).idx - 2) * 256 +
        (ptbWrite (ptbWrite s 85) 170).buf
        ((ptbWrite (ptbWrite s 85) 170).idx - 1) = 21930 := by
      rw [hread2, hread1]
    have hh : ptbHeader (ptbWrite (ptbWrite s 85) 170) =
        { idx := 2, haveHdr := true, msgLen := s.msgLen,
          buf := fupd (fupd (ptbWrite (ptbWrite s 85) 170).buf 0 85) 1 170 } := by
      unfold ptbHeader
      rw [if_pos hcond, if_pos hhit, hread2, hread1]
      rfl
    unfold processTuyaByte
    rw [hh]
    rw [ptbMsgLen_idxNe (by simp)]
    rw [if_neg]
    simp only [h2]
    omega
  have hrun : runFrames s [85, 170] =
      ({ idx := 2, haveHdr := true, msgLen := s.msgLen,
         buf := fupd (fupd (ptbWrite (ptbWrite s 85) 170).buf 0 85) 1 170 },
        []) := by
    simp only [runFrames, e1, e2]
  rw [hrun]
  refine ⟨rfl, rfl, rfl, h2, ?_, ?_⟩
  · simp [fupd]
  · simp [fupd]

/-- Unfolding equation for a quiet reassembler step. -/
theorem runFrames_cons_none {s s' : PortState} {b : Nat}
    (h : processTuyaByte s b = (s', none)) (bs : List Nat) :
    runFrames s (b :: bs) = runFrames s' bs := by
  conv_lhs => unfold runFrames
  rw [h]

/-- Unfolding equation for a delivering reassembler step. -/
theorem runFrames_cons_some {s s' : PortState} {b : Nat} {fn : (Nat → Nat) × Nat}
    (h : processTuyaByte s b = (s', some fn)) (bs : List Nat) :
    runFrames s (b :: bs) =
      ((runFrames s' bs).1,
        (List.range fn.2).map fn.1 :: (runFrames s' bs).2) := by
  conv_lhs => unfold runFrames
  rw [h]

/-- Frame collection splits over stream concatenation. -/
theorem runFrames_append (xs : List Nat) : ∀ (s : PortState) (ys : List Nat),
    (runFrames s (xs ++ ys)).2 =
      (runFrames s xs).2 ++ (runFrames (runFrames s xs).1 ys).2 ∧
    (runFrames s (xs ++ ys)).1 = (runFrames (runFrames s xs).1 ys).1 := by
  induction xs with
  | nil =>
    intro s ys
    simp [runFrames]
  | cons b xs ih =>
    intro s ys
    rcases hA : processTuyaByte s b with ⟨s', o⟩
    cases o with
    | none =>
      rw [List.cons_append, runFrames_cons_none hA (xs ++ ys),
        runFrames_cons_none hA xs]
      exact ih s' ys
    | some fn =>
      rw [List.cons_append, runFrames_cons_some hA (xs ++ ys),
        runFrames_cons_some hA xs]
      refine ⟨?_, (ih s' ys).2⟩
      rw [(ih s' ys).1]
      simp

/-- C3, amended: (1) prepending any bytes that do not narrow to 0x55 - few
enough that the junk plus the re-sync header stays below the buffer-limit
flush - to a stream beginning with the 0x55 0xAA header leaves the sequence of
delivered frames unchanged; (2) the header scan only runs while no header has
been seen: a 0x55 0xAA pair arriving while a frame is in flight does NOT
truncate it, but is consumed as frame data (here completing an 8-byte frame
that ends with the injected pair). -/
theorem C3_amended_resync :
    (∀ (J rest : List Nat), (∀ b ∈ J, b % 256 ≠ 85) →
      J.length + 3 < BUFF_LEN - 10 →
      (runFrames initPort (J ++ 85 :: 170 :: rest)).2 =
        (runFrames initPort (85 :: 170 :: rest)).2) ∧
    (runFrames initPort [85, 170, 3, 7, 0, 1, 85, 170]).2 =
      [[85, 170, 3, 7, 0, 1, 85, 170]] := by
  constructor
  · intro J rest hJ hlen
    have hsplitL : J ++ 85 :: 170 :: rest = (J ++ [85, 170]) ++ rest := by simp
    have hsplitR : 85 :: 170 :: rest = ([85, 170] : List Nat) ++ rest := by simp
    rw [hsplitL, hsplitR]
    obtain ⟨jOut, jIdx, jHdr, jLen, jBuf⟩ := junk_run J initPort hJ rfl rfl
      (fun i hi => absurd hi (by simp [initPort]))
      (by simp only [initPort]; omega)
    have hcapA : (runFrames initPort J).1.idx + 2 < BUFF_LEN - 10 := by
      rw [jIdx]
      simp only [initPort]
      omega
    obtain ⟨rAout, rAidx, rAhdr, rAlen, rAb0, rAb1⟩ :=
      resync_run (runFrames initPort J).1 jHdr jLen hcapA
    have hcapB : initPort.idx + 2 < BUFF_LEN - 10 := by
      simp [initPort, BUFF_LEN]
    obtain ⟨rBout, rBidx, rBhdr, rBlen, rBb0, rBb1⟩ :=
      resync_run initPort rfl rfl hcapB
    have hrel : PortRel (runFrames (runFrames initPort J).1 [85, 170]).1
        (runFrames initPort [85, 170]).1 := by
      refine ⟨by rw [rAidx, rBidx], by rw [rAhdr, rBhdr], by rw [rAlen, rBlen], ?_⟩
      intro i hi
      rw [rAidx] at hi
      interval_cases i
      · rw [rAb0, rBb0]
      · rw [rAb1, rBb1]
    have hbs := runFrames_bisim hrel rest
    rw [(runFrames_append (J ++ [85, 170]) initPort rest).1]
    rw [(runFrames_append ([85, 170]) initPort rest).1]
    rw [(runFrames_append J initPort [85, 170]).1,
        (runFrames_append J initPort [85, 170]).2]
    rw [jOut, rAout, rBout, hbs.1]
    simp
  · rfl

/-- C3 amended witness: three junk bytes (1, 2, 170 - none narrowing to 0x55)
before a complete 8-byte frame change nothing about the delivered frames. -/
theorem C3_amended_resync_witness :
    (runFrames initPort ([1, 2, 170] ++ 85 :: 170 :: [3, 7, 0, 1, 200, 201])).2 =
      (runFrames initPort (85 :: 170 :: [3, 7, 0, 1, 200, 201])).2 :=
  C3_amended_resync.1 [1, 2, 170] [3, 7, 0, 1, 200, 201]
    (by decide) (by decide)

/-- C3, counterexample: while the 15-byte frame beginning
`55 aa 03 07 00 08` is in flight, an injected `55 aa` pair does not truncate
it and does not restart decoding: the pair and the first bytes of the next
valid frame F = `55 aa 03 07 00 08 02 02 00 04 00 00 00 bc d5` are swallowed
into the in-flight frame, a single garbled frame is delivered, and F itself -
which alone decodes to exactly [F] - is never delivered. -/
theorem C3_counterexample_no_midframe_resync :
    (runFrames initPort ([85, 170, 3, 7, 0, 8] ++ [85, 170] ++
        [85, 170, 3, 7, 0, 8, 2, 2, 0, 4, 0, 0, 0, 188, 213])).2 =
      [[85, 170, 3, 7, 0, 8, 85, 170, 85, 170, 3, 7, 0, 8, 2]] ∧
    (runFrames initPort
        [85, 170, 3, 7, 0, 8, 2, 2, 0, 4, 0, 0, 0, 188, 213]).2 =
      [[85, 170, 3, 7, 0, 8, 2, 2, 0, 4, 0, 0, 0, 188, 213]] ∧
    [85, 170, 3, 7, 0, 8, 2, 2, 0, 4, 0, 0, 0, 188, 213] ∉
      (runFrames initPort ([85, 170, 3, 7, 0, 8] ++ [85, 170] ++
        [85, 170, 3, 7, 0, 8, 2, 2, 0, 4, 0, 0, 0, 188, 213])).2 := by
  refine ⟨by decide, by decide, by decide⟩

/-- Every valid slot edit buffers into the schedule table and bumps the
counter; only when the counter reaches 16 is the single datapoint-43 flush of
the whole table submitted (and the counter reset). -/
theorem slotEdit_step (st : AppState) (varName value : String)
    (h : ValidEdit varName) :
    ∃ sch : Nat → Nat → Int,
      updateAppStatus st varName value =
        if st.slotCnt + 1 ≥ 16 then
          ({ st with schedule := sch, slotCnt := 0 },
            [(('M', 6 :: 43 :: 0 :: tableNums sch) : TuyaMsg)])
        else ({ st with schedule := sch, slotCnt := st.slotCnt + 1 }, []) := by
  have hne : ∀ k : String, containsStr k "slotTime" = false →
      containsStr k "slotTemp" = false → varName ≠ k := by
    intro k hk1 hk2 he
    subst he
    rcases h with ⟨hST, _⟩ | ⟨_, hSP, _⟩
    · rw [hST] at hk1; exact absurd hk1 (by simp)
    · rw [hSP] at hk2; exact absurd hk2 (by simp)
  have h1 := hne "tgtTemp" (by decide) (by decide)
  have h2 := hne "floorMax" (by decide) (by decide)
  have h3 := hne "tempSensor" (by decide) (by decide)
  have h4 := hne "progMode" (by decide) (by decide)
  have h5 := hne "frost" (by decide) (by decide)
  have h6 := hne "switchDisp" (by decide) (by decide)
  have h7 := hne "childLock" (by decide) (by decide)
  have h8 := hne "roomMax" (by decide) (by decide)
  have h9 := hne "tempCal" (by decide) (by decide)
  have h10 := hne "espCal" (by decide) (by decide)
  have h11 := hne "tempLash" (by decide) (by decide)
  have h12 := hne "daySetting" (by decide) (by decide)
  have h13 := hne "backLight" (by decide) (by decide)
  have h14 := hne "doReset" (by decide) (by decide)
  have h15 := hne "doReverse" (by decide) (by decide)
  simp only [updateAppStatus]
  rw [if_neg h1, if_neg h2, if_neg h3, if_neg h4, if_neg h5, if_neg h6,
    if_neg h7, if_neg h8, if_neg h9, if_neg h10, if_neg h11, if_neg h12,
    if_neg h13, if_neg h14, if_neg h15]
  rcases h with ⟨hST, hslot⟩ | ⟨hnST, hSP, hslot⟩
  · rw [if_pos hST, if_pos hslot]
    refine ⟨schedUpd (schedUpd (schedUpd st.schedule
        (slotNum varName) 0 (parseHM value).1) (slotNum varName) 1
        (parseHM value).2) (slotNum varName) 5
        (((parseHM value).1 * 60 + (parseHM value).2) * 60), ?_⟩
    by_cases hf : st.slotCnt + 1 ≥ 16
    · rw [if_pos (show ({ st with slotCnt := st.slotCnt + 1 } :
        AppState).slotCnt ≥ 16 from hf)]
      rw [if_pos hf]
      rfl
    · rw [if_neg (show ¬ ({ st with slotCnt := st.slotCnt + 1 } :
        AppState).slotCnt ≥ 16 from hf)]
      rw [if_neg hf]
      simp
  · rw [if_neg (show ¬ containsStr varName "slotTime" = true from by
      rw [hnST]; simp)]
    rw [if_pos hSP, if_pos hslot]
    refine ⟨schedUpd (schedUpd (schedUpd st.schedule
        (slotNum varName) 2 (((toInt16 (ratTrunc (atof value * 10))).fdiv
          256).emod 256))
        (slotNum varName) 3 ((toInt16 (ratTrunc (atof value * 10))).emod 256))
        (slotNum varName) 4 (toInt16 (ratTrunc (atof value * 10))), ?_⟩
    by_cases hf : st.slotCnt + 1 ≥ 16
    · rw [if_pos (show ({ st with slotCnt := st.slotCnt + 1 } :
        AppState).slotCnt ≥ 16 from hf)]
      rw [if_pos hf]
      rfl
    · rw [if_neg (show ¬ ({ st with slotCnt := st.slotCnt + 1 } :
        AppState).slotCnt ≥ 16 from hf)]
      rw [if_neg hf]
      simp

/-- Below 16 buffered edits, a run of valid slot edits submits nothing and
adds its length to the counter. -/
theorem slotEdits_quiet (es : List (String × String)) : ∀ st : AppState,
    (∀ e ∈ es, ValidEdit e.1) → st.slotCnt + es.length < 16 →
    (runEdits st es).2 = [] ∧
    (runEdits st es).1.slotCnt = st.slotCnt + es.length := by
  induction es with
  | nil =>
    intro st _ _
    exact ⟨rfl, by simp [runEdits]⟩
  | cons e es ih =>
    intro st hv hcap
    have hlen : (e :: es).length = es.length + 1 := by simp
    obtain ⟨sch, hstep⟩ := slotEdit_step st e.1 e.2 (hv e (by simp))
    rw [if_neg (by omega)] at hstep
    have ihs := ih { st with schedule := sch, slotCnt := st.slotCnt + 1 }
      (fun x hx => hv x (by simp [hx])) (by simp only; omega)
    unfold runEdits
    rw [hstep]
    refine ⟨?_, ?_⟩
    · rw [ihs.1]
      rfl
    · rw [ihs.2]
      simp only
      omega

/-- Truncating a reduced byte back to an integer is the identity. -/
theorem emod256_byte (n : Int) : (((n.emod 256).emod 256).toNat : Int) = n.emod 256 := by
  have h0 : 0 ≤ n.emod 256 := Int.emod_nonneg n (by norm_num)
  have h1 : n.emod 256 < 256 := Int.emod_lt_of_pos n (by norm_num)
  have h2 : (n.emod 256).emod 256 = n.emod 256 := Int.emod_eq_of_lt h0 h1
  rw [h2]
  exact Int.toNat_of_nonneg h0

theorem dataLoop_spec (L : List Int) : ∀ (buf : Nat → Nat) (idx : Nat),
    (dataLoop L buf idx).2 = idx + L.length ∧
    (∀ p, p ≤ idx → (dataLoop L buf idx).1 p = buf p) ∧
    (∀ k, k < L.length →
      (dataLoop L buf idx).1 (idx + 1 + k) = ((L.getD k 0).emod 256).toNat) := by
  induction L with
  | nil =>
    intro buf idx
    exact ⟨by simp [dataLoop], fun p _ => rfl, fun k hk => absurd hk (by simp)⟩
  | cons n L ih =>
    intro buf idx
    have hstep : dataLoop (n :: L) buf idx =
        dataLoop L (fupd buf (idx + 1) ((n.emod 256).toNat)) (idx + 1) := rfl
    obtain ⟨ih1, ih2, ih3⟩ := ih (fupd buf (idx + 1) ((n.emod 256).toNat)) (idx + 1)
    rw [hstep]
    refine ⟨by rw [ih1]; simp; omega, ?_, ?_⟩
    · intro p hp
      rw [ih2 p (by omega)]
      simp only [fupd]
      rw [if_neg (by omega)]
    · intro k hk
      cases k with
      | zero =>
        have := ih2 (idx + 1) (le_refl _)
        rw [show idx + 1 + 0 = idx + 1 from by omega, this]
        simp [fupd]
      | succ j =>
        have := ih3 j (by simp at hk; omega)
        rw [show idx + 1 + (j + 1) = idx + 1 + 1 + j from by omega, this]
        rfl

theorem mapRangeChecksum_getD (f : Nat → Nat) (n k x : Nat) (hk : k < n) :
    (((List.range n).map f) ++ [x]).getD k 0 = f k := by
  rw [List.getD_append _ _ _ _ (by simpa using hk)]
  simp [List.getD_eq_getElem?_getD, List.getElem?_map, List.getElem?_range hk]

theorem core_flush_getD (L : List Int) :
    (processTuyaMsgCore 0 (6 :: 43 :: 0 :: L)).length = 11 + L.length ∧
    (processTuyaMsgCore 0 (6 :: 43 :: 0 :: L)).getD 6 0 = 43 ∧
    (processTuyaMsgCore 0 (6 :: 43 :: 0 :: L)).getD 7 0 = 0 ∧
    (processTuyaMsgCore 0 (6 :: 43 :: 0 :: L)).getD 8 0 = (L.length / 256) % 256 ∧
    (processTuyaMsgCore 0 (6 :: 43 :: 0 :: L)).getD 9 0 = L.length % 256 ∧
    ∀ k, k < L.length →
      (processTuyaMsgCore 0 (6 :: 43 :: 0 :: L)).getD (10 + k) 0 =
        ((L.getD k 0).emod 256).toNat := by
  obtain ⟨hd2, hdKeep, hdData⟩ :=
    dataLoop_spec L (fupd (fupd (fupd (fun _ => 0) 3 6) 6 43) 7 0) 9
  have hred : processTuyaMsgCore 0 (6 :: 43 :: 0 :: L) =
      (fun d : ((Nat → Nat) × Nat) =>
        withChecksum ((List.range (d.2 + 1)).map
          (fupd (fupd (fupd (fupd (fupd (fupd (fupd d.1
            0 85) 1 170) 2 0) 4 ((d.2 - 5) / 256 % 256)) 5 ((d.2 - 5) % 256))
            8 ((d.2 - 9) / 256 % 256)) 9 ((d.2 - 9) % 256))))
        (dataLoop L (fupd (fupd (fupd (fun _ => 0) 3 6) 6 43) 7 0) 9) := by
    rfl
  rw [hred]
  simp only [withChecksum]
  rw [hd2]
  refine ⟨by simp; omega, ?_, ?_, ?_, ?_, ?_⟩
  · rw [mapRangeChecksum_getD _ _ _ _ (by omega)]
    simp only [fupd]
    norm_num
    rw [hdKeep 6 (by omega)]
    simp [fupd]
  · rw [mapRangeChecksum_getD _ _ _ _ (by omega)]
    simp only [fupd]
    norm_num
    rw [hdKeep 7 (by omega)]
    simp [fupd]
  · rw [mapRangeChecksum_getD _ _ _ _ (by omega)]
    simp only [fupd]
    norm_num
  · rw [mapRangeChecksum_getD _ _ _ _ (by omega)]
    simp only [fupd]
    norm_num
  · intro k hk
    rw [mapRangeChecksum_getD _ _ _ _ (by omega)]
    simp only [fupd]
    rw [if_neg (by omega), if_neg (by omega), if_neg (by omega),
      if_neg (by omega), if_neg (by omega), if_neg (by omega), if_neg (by omega)]
    rw [show 10 + k = 9 + 1 + k from by omega]
    exact hdData k hk

/-- An integer already in byte range survives the narrowing round trip. -/
theorem emod256_entry (n : Int) (h0 : 0 ≤ n) (h1 : n < 256) :
    ((n.emod 256).toNat : Int) = n := by
  have h2 : n.emod 256 = n := Int.emod_eq_of_lt h0 h1
  rw [h2]
  exact Int.toNat_of_nonneg h0

/-- Every slot-table number is a byte value. -/
theorem tableNums_getD_bounds (sch : Nat → Nat → Int) (k : Nat) (hk : k < 32) :
    0 ≤ (tableNums sch).getD k 0 ∧ (tableNums sch).getD k 0 < 256 := by
  interval_cases k <;>
    exact ⟨Int.emod_nonneg _ (by norm_num), Int.emod_lt_of_pos _ (by norm_num)⟩

/-- Command collection splits over edit-list concatenation. -/
theorem runEdits_append (xs : List (String × String)) :
    ∀ (st : AppState) (ys : List (String × String)),
    (runEdits st (xs ++ ys)).2 =
      (runEdits st xs).2 ++ (runEdits (runEdits st xs).1 ys).2 ∧
    (runEdits st (xs ++ ys)).1 = (runEdits (runEdits st xs).1 ys).1 := by
  induction xs with
  | nil =>
    intro st ys
    simp [runEdits]
  | cons e xs ih =>
    intro st ys
    simp only [List.cons_append, runEdits, List.append_eq]
    rw [(ih (updateAppStatus st e.1 e.2).1 ys).1,
      (ih (updateAppStatus st e.1 e.2).1 ys).2]
    simp

/-- C7, amended: starting from a state with NO pending slot edits, a batch of
16 valid `slotTime<n>`/`slotTemp<n>` updates submits nothing during the first
15 edits, and on the 16th submits exactly one datapoint-43 command carrying
the 32 `uint8`-narrowed slot-table numbers (columns HH, MM, TH, TL for slots
0..7), after which the edit counter is 0; the encoded frame has the table as
its 32 data bytes at positions 10..41, datapoint id 43 and type 0 at positions
6 and 7, and inner length 32 at positions 8 and 9. -/
theorem C7_slot_batch_flush (st : AppState) (es : List (String × String))
    (h0 : st.slotCnt = 0) (hlen : es.length = 16)
    (hv : ∀ e ∈ es, ValidEdit e.1) :
    (∀ k, k ≤ 15 → (runEdits st (es.take k)).2 = []) ∧
    (runEdits st es).2 =
      [(('M', 6 :: 43 :: 0 :: tableNums ((runEdits st es).1.schedule)) : TuyaMsg)] ∧
    (runEdits st es).1.slotCnt = 0 ∧
    ∀ fr, processTuyaMsg 'M'
        (6 :: 43 :: 0 :: tableNums ((runEdits st es).1.schedule)) = some fr →
      fr.length = 43 ∧ fr.getD 6 0 = 43 ∧ fr.getD 7 0 = 0 ∧
      fr.getD 8 0 = 0 ∧ fr.getD 9 0 = 32 ∧
      ∀ k, k < 32 →
        (fr.getD (10 + k) 0 : Int) =
          (tableNums ((runEdits st es).1.schedule)).getD k 0 := by
  have htake : ∀ k, k ≤ 15 → (runEdits st (es.take k)).2 = [] := by
    intro k hk
    exact (slotEdits_quiet (es.take k) st
      (fun e he => hv e (List.mem_of_mem_take he))
      (by rw [h0, List.length_take]; omega)).1
  have hsplit : es.take 15 ++ es.drop 15 = es := List.take_append_drop 15 es
  have hdlen : (es.drop 15).length = 1 := by rw [List.length_drop, hlen]
  obtain ⟨e16, hdrop⟩ : ∃ e, es.drop 15 = [e] := by
    cases hd : es.drop 15 with
    | nil => rw [hd] at hdlen; simp at hdlen
    | cons a t =>
      rw [hd] at hdlen
      simp at hdlen
      exact ⟨a, by rw [hdlen]⟩
  obtain ⟨q15, c15⟩ := slotEdits_quiet (es.take 15) st
    (fun e he => hv e (List.mem_of_mem_take he))
    (by rw [h0, List.length_take]; omega)
  have hc15 : (runEdits st (es.take 15)).1.slotCnt = 15 := by
    rw [c15, h0, List.length_take, hlen]
    omega
  obtain ⟨sch, hstep⟩ := slotEdit_step (runEdits st (es.take 15)).1 e16.1 e16.2
    (by
      refine hv e16 ?_
      rw [← hsplit, hdrop]
      simp)
  rw [if_pos (by rw [hc15])] at hstep
  have hES : es = es.take 15 ++ [e16] := by rw [← hdrop, hsplit]
  have happ := runEdits_append (es.take 15) st [e16]
  have hrun1 : (runEdits st es).2 =
      (runEdits st (es.take 15)).2 ++
        (runEdits (runEdits st (es.take 15)).1 [e16]).2 := by
    conv_lhs => rw [hES]
    exact happ.1
  have hrunS : (runEdits st es).1 =
      (runEdits (runEdits st (es.take 15)).1 [e16]).1 := by
    conv_lhs => rw [hES]
    exact happ.2
  have hone : runEdits (runEdits st (es.take 15)).1 [e16] =
      ((updateAppStatus (runEdits st (es.take 15)).1 e16.1 e16.2).1,
        (updateAppStatus (runEdits st (es.take 15)).1 e16.1 e16.2).2) := by
    simp [runEdits]
  rw [hstep] at hone
  have hsched : (runEdits st es).1.schedule = sch := by
    rw [hrunS, hone]
  refine ⟨htake, ?_, ?_, ?_⟩
  · rw [hrun1, q15, hone, hsched]
    rfl
  · rw [hrunS, hone]
  · intro fr hfr
    rw [hsched] at hfr
    have hfr' : fr = processTuyaMsgCore 0 (6 :: 43 :: 0 :: tableNums sch) := by
      unfold processTuyaMsg at hfr
      rw [if_pos rfl] at hfr
      exact (Option.some_inj.mp hfr).symm
    have h32 : (tableNums sch).length = 32 := by
      simp [tableNums]
      rfl
    obtain ⟨hfl, hf6, hf7, hf8, hf9, hfd⟩ := core_flush_getD (tableNums sch)
    rw [← hfr'] at hfl hf6 hf7 hf8 hf9 hfd
    rw [hsched]
    refine ⟨by rw [hfl, h32], hf6, hf7, by rw [hf8, h32], by rw [hf9, h32], ?_⟩
    intro k hk
    obtain ⟨hb0, hb1⟩ := tableNums_getD_bounds sch k hk
    rw [hfd k (by rw [h32]; omega)]
    exact emod256_entry _ hb0 hb1

/-- C7 witness: from the initial state, the concrete 16-edit batch `exEdits`
submits exactly one datapoint-43 command with the table bytes of the edited
schedule. -/
theorem C7_slot_batch_flush_witness :
    (runEdits initApp exEdits).2 =
      [(('M', 6 :: 43 :: 0 ::
        tableNums ((runEdits initApp exEdits).1.schedule)) : TuyaMsg)] ∧
    (tableNums ((runEdits initApp exEdits).1.schedule)).getD 0 0 = 6 ∧
    (tableNums ((runEdits initApp exEdits).1.schedule)).getD 1 0 = 0 ∧
    (tableNums ((runEdits initApp exEdits).1.schedule)).getD 4 0 = 8 ∧
    (tableNums ((runEdits initApp exEdits).1.schedule)).getD 5 0 = 30 ∧
    (runEdits initApp exEdits).1.slotCnt = 0 :=
  ⟨(C7_slot_batch_flush initApp exEdits rfl (by decide) (by decide)).2.1,
   by decide, by decide, by decide, by decide,
   (C7_slot_batch_flush initApp exEdits rfl (by decide) (by decide)).2.2.1⟩

/-- C7, counterexample: the claim's precondition allows any state with fewer
than 16 pending edits, but from a reachable state with 15 pending edits the
very FIRST of the 16 incoming updates already triggers the datapoint-43
flush - a frame is produced before the last edit arrives, contradicting the
claim's "none before the last edit arrives". -/
theorem C7_counterexample_pending_edits :
    ({ initApp with slotCnt := 15 } : AppState).slotCnt < 16 ∧
    ValidEdit "slotTime1" ∧
    (updateAppStatus { initApp with slotCnt := 15 } "slotTime1" "06:00").2 =
      [(('M', [6, 43, 0, 6, 0, 0, 0, 0, 0, 0, 0, 0, 0, 0, 0, 0, 0, 0, 0, 0, 0,
        0, 0, 0, 0, 0, 0, 0, 0, 0, 0, 0, 0, 0, 0]) : TuyaMsg)] ∧
    (updateAppStatus { initApp with slotCnt := 15 } "slotTime1" "06:00").2 ≠
      [] := by
  refine ⟨by decide, by decide, by decide, by decide⟩
